import Mathlib

/-!
Verification of the VANTAGE PROTOCOL dashboard core (src/app.py).

The program is a single-page dashboard: it loads rows of the table
audit_ledger (load_data), coerces the numeric columns total_amount and
risk_score (module-level cleanup, lines 223-224), aggregates rows per
vendor and ranks them (execute_agent_3, lines 177-183), formats evidence
lines and calls a text-completion service (lines 186-217), builds the
donut-chart data with a top-4 plus Others bucket (pie_data, lines
234-240), and renders returned finding lines by splitting them on the
separator :: (lines 315-319).

Embedding conventions:
  - Python floats are modelled as exact rationals (Rat); pandas sums of
    per-vendor groups are finite rational sums, so the floating-point
    tolerance the spec allows is not needed: equalities are exact.
  - pandas groupby sorts its keys ascending (sort=True is the default),
    and a multi-column sort_values is a stable lexicographic sort; both
    are modelled with insertion sort, which is stable.
  - Python strings are List Char wherever the splitting logic matters;
    the wrappers keep String for the public shapes.
  - fallible calls (supabase fetch, groq completion) are Except values
    passed in as arguments; a Python function that can only return is
    total here, which models the absence of escaping exceptions.
-/

/-- A cell of the raw dataframe as pandas sees it after pd.DataFrame on
the list of records returned by the row source: a number, a string, or
an explicit null (which pandas stores as NaN). -/
inductive CellVal where
  | num (q : Rat)
  | str (s : String)
  | null
deriving DecidableEq

/-- One raw record from the row source.  total_amount and risk_score are
Option CellVal: none models the key being absent from the record, which
in pandas makes the cell NaN when at least one other record has the key,
and makes the whole column absent when no record has it. -/
structure RawRow where
  invoice_id : String
  vendor_name : String
  total_amount : Option CellVal
  risk_score : Option CellVal
deriving DecidableEq

/-- A cleaned ledger row, after the module-level coercion of lines
223-224: both numeric columns are genuine numbers.  vendor_name and
invoice_id are plain strings per the data model (they are never null in
the rows this pipeline is specified over). -/
structure LedgerRow where
  invoice_id : String
  vendor_name : String
  total_amount : Rat
  risk_score : Rat
deriving DecidableEq

/-- One per-vendor aggregate: the result shape of
full_df.groupby(vendor_name).agg(total_spend=sum, txn_count=count)
at lines 177-180. -/
structure VendorAggregate where
  vendor_name : String
  total_spend : Rat
  txn_count : Nat
deriving DecidableEq

/-! ### String splitting, modelling Python str.split -/

/-- Python s.split(c) for a single-character separator c: keeps empty
pieces, and the result of splitting any string is never empty
(the empty string splits to one empty piece). -/
def pySplitChar (c : Char) : List Char → List Char → List (List Char)
  | [], acc => [acc.reverse]
  | x :: xs, acc =>
    if x = c then acc.reverse :: pySplitChar c xs []
    else pySplitChar c xs (x :: acc)

/-- content.split with separator a newline, lifted back to String, as on
line 215. -/
def pySplitLines (s : String) : List String :=
  (pySplitChar (Char.ofNat 10) s.toList []).map (fun cs => String.mk cs)

/-- Python find.split applied with the two-character separator used by
the rendering loop at line 317: cut at every non-overlapping occurrence
of two consecutive colon characters, scanning left to right. -/
def splitOnColons : List Char → List Char → List (List Char)
  | ':' :: ':' :: xs, acc => acc.reverse :: splitOnColons xs []
  | x :: xs, acc => splitOnColons xs (x :: acc)
  | [], acc => [acc.reverse]

/-- Python test (sep in find) for the two-colon separator, as on
line 316. -/
def containsColons : List Char → Bool
  | ':' :: ':' :: _ => true
  | _ :: xs => containsColons xs
  | [] => false

/-- The piece of a line before its first two-colon separator (the whole
line when there is none). -/
def takeUntilSep : List Char → List Char
  | ':' :: ':' :: _ => []
  | x :: xs => x :: takeUntilSep xs
  | [] => []

/-- The remainder of a line after its first two-colon separator, none
when there is none. -/
def dropSep : List Char → Option (List Char)
  | ':' :: ':' :: xs => some xs
  | _ :: xs => dropSep xs
  | [] => none

/-- Reassemble split pieces with the two-colon separator (the inverse
direction of splitOnColons). -/
def joinParts : List (List Char) → List Char
  | [] => []
  | [p] => p
  | p :: q :: ps => p ++ ':' :: ':' :: joinParts (q :: ps)

/-- Substring test over character lists; listContains pat s decides
whether pat occurs contiguously in s (Python: pat in s). -/
def listContains (pat : List Char) : List Char → Bool
  | [] => pat.isPrefixOf []
  | s@(_ :: rest) => pat.isPrefixOf s || listContains pat rest

/-- Python (pat in s) on strings. -/
def strContains (pat s : String) : Bool :=
  listContains pat.toList s.toList

/-! ### Ledger loader (load_data, lines 161-168) -/

/-- load_data: the supabase fetch either yields the raw records or
raises; the except branch returns an empty dataframe for UI stability.
The fetch outcome is passed in as an Except value. -/
def load_data (fetchResult : Except String (List RawRow)) : List RawRow :=
  match fetchResult with
  | Except.ok rows => rows
  | Except.error _ => []

/-! ### Numeric coercion (module-level cleanup, lines 223-224)

pandas semantics being modelled:
  - pd.DataFrame(records): a column exists iff at least one record has
    the key; cells of records lacking the key are NaN.
  - df[col] raises KeyError when the column does not exist.
  - pd.to_numeric(col, errors=coerce): numbers pass through, strings
    are parsed as decimal literals, anything unparsable becomes NaN.
  - .fillna(0): NaN becomes 0.
The decimal-literal parser below covers plain decimal forms
(optional minus sign, digits, optional fractional part); any other
string fails to parse and is coerced to 0. -/

/-- Value of a decimal digit character, none for a non-digit. -/
def digitVal (c : Char) : Option Nat :=
  if c.isDigit then some (c.toNat - ('0').toNat) else none

/-- Read a nonempty all-digit character list as a natural number. -/
def natOfDigitsAux : List Char → Nat → Option Nat
  | [], acc => some acc
  | c :: cs, acc =>
    match digitVal c with
    | some d => natOfDigitsAux cs (acc * 10 + d)
    | none => none

/-- natOfDigits: none on the empty list or on any non-digit. -/
def natOfDigits (cs : List Char) : Option Nat :=
  match cs with
  | [] => none
  | _ => natOfDigitsAux cs 0

/-- Parse a plain decimal literal, as pd.to_numeric accepts for string
cells; none models NaN after errors=coerce. -/
def parseDec (s : String) : Option Rat :=
  let cs := s.toList
  let signed : Bool × List Char :=
    match cs with
    | '-' :: rest => (true, rest)
    | _ => (false, cs)
  let (neg, body) := signed
  match pySplitChar '.' body [] with
  | [intPart] =>
    (natOfDigits intPart).map (fun n => if neg then -(n : Rat) else (n : Rat))
  | [intPart, fracPart] =>
    match natOfDigits intPart, natOfDigits fracPart with
    | some i, some f =>
      let q : Rat := (i : Rat) + (f : Rat) / ((10 : Rat) ^ fracPart.length)
      some (if neg then -q else q)
    | _, _ => none
  | _ => none

/-- pd.to_numeric(cell, errors=coerce).fillna(0) for one cell; none
(key absent, hence NaN) and null both become 0, unparsable strings
become 0. -/
def coerceCell (c : Option CellVal) : Rat :=
  match c with
  | none => 0
  | some CellVal.null => 0
  | some (CellVal.num q) => q
  | some (CellVal.str s) => (parseDec s).getD 0

/-- Coerce one raw record to a clean ledger row. -/
def cleanRow (r : RawRow) : LedgerRow :=
  { invoice_id := r.invoice_id
    vendor_name := r.vendor_name
    total_amount := coerceCell r.total_amount
    risk_score := coerceCell r.risk_score }

/-- Lines 223-224 of the source.  df[total_amount] is read first, then
df[risk_score]; reading a column that no record carries raises KeyError
(the guard at line 221 means this code only runs on a nonempty
dataframe).  When both columns exist, each cell is coerced with
to_numeric(errors=coerce).fillna(0). -/
def cleanup (rows : List RawRow) : Except String (List LedgerRow) :=
  if rows.all (fun r => r.total_amount = none) then
    Except.error "KeyError: total_amount"
  else if rows.all (fun r => r.risk_score = none) then
    Except.error "KeyError: risk_score"
  else
    Except.ok (rows.map cleanRow)

/-! ### Vendor aggregation (execute_agent_3, lines 177-190) -/

/-- The distinct vendor names of the rows, ascending: pandas groupby
sorts its group keys (sort=True is the default). -/
def strKeys (rows : List LedgerRow) : List String :=
  List.insertionSort (fun a b : String => a ≤ b)
    ((rows.map LedgerRow.vendor_name).dedup)

/-- The rows of one vendor group. -/
def rowsFor (rows : List LedgerRow) (k : String) : List LedgerRow :=
  rows.filter (fun r => r.vendor_name == k)

/-- total_spend of one group: the sum of its total_amount values. -/
def spendOf (rows : List LedgerRow) (k : String) : Rat :=
  ((rowsFor rows k).map LedgerRow.total_amount).sum

/-- Lines 177-180: groupby vendor_name with total_spend = sum of
total_amount and txn_count = count of invoice_id.  invoice_id is never
null in a ledger row, so the count is the group size. -/
def stats (rows : List LedgerRow) : List VendorAggregate :=
  (strKeys rows).map (fun k =>
    { vendor_name := k
      total_spend := spendOf rows k
      txn_count := (rowsFor rows k).length })

/-- The key of line 183: a is ranked at or before b when a has strictly
larger total_spend, or equal total_spend and at least as large a
txn_count (sort_values on both columns, ascending=False). -/
def aggGE (a b : VendorAggregate) : Prop :=
  b.total_spend < a.total_spend ∨
    (b.total_spend = a.total_spend ∧ b.txn_count ≤ a.txn_count)

instance : DecidableRel aggGE := fun a b =>
  inferInstanceAs (Decidable (b.total_spend < a.total_spend ∨
    (b.total_spend = a.total_spend ∧ b.txn_count ≤ a.txn_count)))

instance : IsTotal VendorAggregate aggGE where
  total a b := by
    rcases lt_trichotomy a.total_spend b.total_spend with h | h | h
    · exact Or.inr (Or.inl h)
    · rcases Nat.le_total b.txn_count a.txn_count with h2 | h2
      · exact Or.inl (Or.inr ⟨h.symm, h2⟩)
      · exact Or.inr (Or.inr ⟨h, h2⟩)
    · exact Or.inl (Or.inl h)

instance : IsTrans VendorAggregate aggGE where
  trans a b c hab hbc := by
    rcases hab with h1 | ⟨h1, h1t⟩ <;> rcases hbc with h2 | ⟨h2, h2t⟩
    · exact Or.inl (lt_trans h2 h1)
    · exact Or.inl (h2 ▸ h1)
    · exact Or.inl (lt_of_lt_of_le h2 (le_of_eq h1))
    · exact Or.inr ⟨h2.trans h1, le_trans h2t h1t⟩

/-- Line 183: stats.sort_values([total_spend, txn_count],
ascending=False).  A multi-column pandas sort_values is a stable
lexicographic sort, modelled by stable insertion sort. -/
def sortedStats (rows : List LedgerRow) : List VendorAggregate :=
  List.insertionSort aggGE (stats rows)

/-- Line 183, .head(25): the evidence window. -/
def targets (rows : List LedgerRow) : List VendorAggregate :=
  (sortedStats rows).take 25

/-- Line 188: avg_ticket = total_spend / txn_count if txn_count > 0
else 0. -/
def avg_ticket (total_spend : Rat) (txn_count : Nat) : Rat :=
  if 0 < txn_count then total_spend / (txn_count : Rat) else 0

/-- Money rendering stand-in for the Python format spec {:,.0f}.
Thousands separators and round-half-even are presentation detail with
no control-flow effect; the integer part is rendered. -/
def fmtMoney (q : Rat) : String :=
  toString q.floor

/-- Lines 186-191: one evidence line per target aggregate. -/
def evidence_lines (rows : List LedgerRow) : List String :=
  (targets rows).map (fun row =>
    "VENDOR: " ++ row.vendor_name ++
    " | TOTAL: $" ++ fmtMoney row.total_spend ++
    " | COUNT: " ++ toString row.txn_count ++
    " | AVG: $" ++ fmtMoney (avg_ticket row.total_spend row.txn_count))

/-- Python repr quoting of one string with single quotes, as the
f-string interpolation of a list of str produces. -/
def pyStrRepr (s : String) : String :=
  String.singleton (Char.ofNat 39) ++ s ++ String.singleton (Char.ofNat 39)

/-- Python repr of a list of strings. -/
def pyListRepr (l : List String) : String :=
  "[" ++ String.intercalate ", " (l.map pyStrRepr) ++ "]"

/-- Lines 194-206: the JSON-shaped directive, with the evidence lines
interpolated as a Python list repr. -/
def agentPrompt (rows : List LedgerRow) : String :=
  "\n    \x7b\n" ++
  "      \"role\": \"Advanced Forensic Anomaly Hunter\",\n" ++
  "      \"core_mission\": \"Analyze aggregated vendor data to detect known exploitable patterns.\",\n" ++
  "      \"input_context\": \x7b \"data\": " ++ pyListRepr (evidence_lines rows) ++ " \x7d,\n" ++
  "      \"analysis_framework\": [\n" ++
  "        \x7b \"vector\": \"STRUCTURING\", \"logic\": \"High count with Avg Ticket just below limits.\" \x7d,\n" ++
  "        \x7b \"vector\": \"VELOCITY\", \"logic\": \"High transaction count relative to spend.\" \x7d\n" ++
  "      ],\n" ++
  "      \"output_format_strict\": \"Return a raw list of strings following this template:\",\n" ++
  "      \"output_template\": \"[VENDOR] :: [PATTERN NAME] (Confidence: X%)\"\n" ++
  "    \x7d\n    "

/-- Lines 173-217.  groq_client models whether the completion client
was initialized (line 155-156); api models the completion call, which
either returns the message content or raises.  Every branch returns a
list, so no exception escapes this boundary. -/
def execute_agent_3 (groq_client : Bool)
    (api : String → Except String String)
    (full_df : List LedgerRow) : List String :=
  if groq_client = false then ["// ERROR: GROQ CLIENT NOT INITIALIZED"]
  else
    match api (agentPrompt full_df) with
    | Except.ok content => pySplitLines content
    | Except.error e => ["// API ERROR: " ++ e]

/-! ### Donut-chart data (lines 234-240) -/

/-- Line 234 before the value sort: groupby(vendor_name)[total_amount]
.sum().reset_index(), giving alphabetically keyed (vendor, total)
pairs. -/
def pieAll (rows : List LedgerRow) : List (String × Rat) :=
  (strKeys rows).map (fun k => (k, spendOf rows k))

/-- The key of the single-column sort_values(total_amount,
ascending=False) on line 234. -/
def pieGE (a b : String × Rat) : Prop := b.2 ≤ a.2

instance : DecidableRel pieGE := fun a b =>
  inferInstanceAs (Decidable (b.2 ≤ a.2))

instance : IsTotal (String × Rat) pieGE where
  total a b := le_total b.2 a.2

instance : IsTrans (String × Rat) pieGE where
  trans _ _ _ hab hbc := le_trans hbc hab

/-- Line 234: the per-vendor totals sorted by total descending. -/
def pieSorted (rows : List LedgerRow) : List (String × Rat) :=
  List.insertionSort pieGE (pieAll rows)

/-- Lines 237-240: when more than 4 vendors exist, keep the top 4 and
fold the tail into a synthetic Others entry carrying the sum of the
excluded totals. -/
def pie_data (rows : List LedgerRow) : List (String × Rat) :=
  let pd := pieSorted rows
  if 4 < pd.length then
    pd.take 4 ++ [("Others", ((pd.drop 4).map Prod.snd).sum)]
  else pd

/-- The number of distinct vendors among the rows. -/
def numVendors (rows : List LedgerRow) : Nat :=
  ((rows.map LedgerRow.vendor_name).dedup).length

/-! ### Finding-line rendering (lines 315-319) -/

/-- Lines 316-319: when a line contains the two-colon separator, split
on it; the title is parts[0] and the description is parts[1] when it
exists, else empty.  Lines without the separator take the other
branches of the rendering loop and produce no (title, desc) pair. -/
def renderFinding (s : List Char) : Option (List Char × List Char) :=
  if containsColons s then
    let parts := splitOnColons s []
    some (parts.headD [], parts.getD 1 [])
  else none

/-! ### Helper lemmas on the splitting functions -/

theorem pySplitChar_ne_nil (c : Char) (l acc : List Char) :
    pySplitChar c l acc ≠ [] := by
  induction l, acc using pySplitChar.induct c with
  | case1 acc => simp [pySplitChar]
  | case2 xs acc ih => simp [pySplitChar]
  | case3 x xs acc hx ih => simpa [pySplitChar, hx] using ih

theorem pySplitLines_ne_nil (s : String) : pySplitLines s ≠ [] := by
  unfold pySplitLines
  simpa using pySplitChar_ne_nil (Char.ofNat 10) s.toList []

theorem splitOnColons_cons (l acc : List Char) :
    splitOnColons l acc
      = (acc.reverse ++ takeUntilSep l)
        :: (match dropSep l with
            | some r => splitOnColons r []
            | none => []) := by
  induction l, acc using splitOnColons.induct with
  | case1 xs acc ih =>
    simp [splitOnColons, takeUntilSep, dropSep]
  | case2 x xs acc h ih =>
    rw [splitOnColons.eq_2 _ _ _ h, takeUntilSep.eq_2 _ _ h, dropSep.eq_2 _ _ h, ih]
    simp
  | case3 acc =>
    simp [splitOnColons, takeUntilSep, dropSep]

theorem splitOnColons_ne_nil (l acc : List Char) : splitOnColons l acc ≠ [] := by
  rw [splitOnColons_cons]
  simp

theorem containsColons_eq_isSome (l : List Char) :
    containsColons l = (dropSep l).isSome := by
  induction l using containsColons.induct with
  | case1 t => simp [containsColons, dropSep]
  | case2 x xs h ih =>
    rw [containsColons.eq_2 _ _ h, dropSep.eq_2 _ _ h, ih]
  | case3 => simp [containsColons, dropSep]

theorem joinParts_splitOnColons (l acc : List Char) :
    joinParts (splitOnColons l acc) = acc.reverse ++ l := by
  induction l, acc using splitOnColons.induct with
  | case1 xs acc ih =>
    rw [splitOnColons.eq_1]
    rcases hq : splitOnColons xs [] with _ | ⟨q, qs⟩
    · exact absurd hq (splitOnColons_ne_nil xs [])
    · rw [hq] at ih
      simp only [joinParts]
      simp only [List.reverse_nil, List.nil_append] at ih
      rw [ih]
  | case2 x xs acc h ih =>
    rw [splitOnColons.eq_2 _ _ _ h, ih]
    simp
  | case3 acc =>
    simp [splitOnColons, joinParts]

theorem noSep_takeUntilSep (l : List Char) :
    containsColons (takeUntilSep l) = false := by
  induction l using takeUntilSep.induct with
  | case1 t => simp [takeUntilSep, containsColons]
  | case2 x xs h ih =>
    rw [takeUntilSep.eq_2 _ _ h]
    have hside : ∀ t : List Char, x = ':' → takeUntilSep xs = ':' :: t → False := by
      intro t hx ht
      rcases xs with _ | ⟨y, ys⟩
      · simp [takeUntilSep] at ht
      · by_cases hy : y = ':'
        · exact h ys hx (by rw [hy])
        · have hys : ∀ t : List Char, y = ':' → ys = ':' :: t → False := by
            intro t h1 _; exact hy h1
          rw [takeUntilSep.eq_2 _ _ hys] at ht
          exact hy (List.head_eq_of_cons_eq ht)
    rw [containsColons.eq_2 _ _ hside]
    exact ih
  | case3 => simp [takeUntilSep, containsColons]

theorem isPrefixOf_stays (pat : List Char) :
    ∀ l m : List Char, pat.isPrefixOf l = true → pat.isPrefixOf (l ++ m) = true := by
  induction pat with
  | nil => intro l m _; simp [List.isPrefixOf]
  | cons p ps ih =>
    intro l m h
    cases l with
    | nil => simp [List.isPrefixOf] at h
    | cons a as =>
      simp only [List.cons_append, List.isPrefixOf, Bool.and_eq_true] at h ⊢
      exact ⟨h.1, ih as m h.2⟩

theorem listContains_of_isPrefixOf (pat s : List Char)
    (h : pat.isPrefixOf s = true) : listContains pat s = true := by
  cases s with
  | nil => simpa [listContains] using h
  | cons a as => simp [listContains, h]

theorem listContains_append_left (pat : List Char) :
    ∀ l m : List Char, listContains pat l = true → listContains pat (l ++ m) = true := by
  intro l
  induction l with
  | nil =>
    intro m h
    simp only [listContains] at h
    cases pat with
    | nil => exact listContains_of_isPrefixOf [] m (by simp [List.isPrefixOf])
    | cons p ps => simp [List.isPrefixOf] at h
  | cons a as ih =>
    intro m h
    simp only [listContains, Bool.or_eq_true] at h
    rcases h with h | h
    · exact listContains_of_isPrefixOf _ _ (isPrefixOf_stays pat (a :: as) m h)
    · have := ih m h
      simp [listContains, Bool.or_eq_true]
      right
      exact this

/-! ### Claim theorems: loader, annotator boundary, avg ticket -/

/-- C7: for every fetch error raised by the row source, load_data
returns the empty result set instead of propagating the exception
(lines 161-168). -/
theorem load_data_error_yields_empty (e : String) :
    load_data (Except.error e) = [] := rfl

/-- C5: avg_ticket (line 188) is total, so no division error can be
raised: it is 0 when txn_count is 0, and total_spend / txn_count when
txn_count is positive. -/
theorem avg_ticket_safe (s : Rat) (c : Nat) :
    (c = 0 → avg_ticket s c = 0) ∧ (0 < c → avg_ticket s c = s / (c : Rat)) := by
  constructor
  · intro h
    simp [avg_ticket, h]
  · intro h
    unfold avg_ticket
    rw [if_pos h]

/-- Witness for C5 at txn_count 0 and txn_count 2. -/
theorem avg_ticket_safe_witness :
    avg_ticket 10 0 = 0 ∧ avg_ticket 10 2 = (10 : Rat) / ((2 : Nat) : Rat) :=
  ⟨(avg_ticket_safe 10 0).1 rfl, (avg_ticket_safe 10 2).2 (by decide)⟩

/-- C10: for every configuration, input dataframe and completion-call
outcome, execute_agent_3 returns a non-empty list of strings: the two
error branches return one-element lists and the success branch splits
the content on newlines, which always yields at least one piece. -/
theorem scan_returns_nonempty (g : Bool) (api : String → Except String String)
    (df : List LedgerRow) : 0 < (execute_agent_3 g api df).length := by
  unfold execute_agent_3
  cases g with
  | false => simp
  | true =>
    simp only [Bool.true_eq_false, if_false]
    cases hapi : api (agentPrompt df) with
    | ok content =>
      simpa using List.length_pos.mpr (pySplitLines_ne_nil content)
    | error e => simp

/-- C6: when the completion client is not configured, or the completion
call raises, execute_agent_3 returns a list with exactly one sentinel
entry, and the sentinel carries the marker ERROR; since the Lean
embedding is a total function, no exception crosses the annotator
boundary (lines 173-174 and 208-217). -/
theorem scan_error_sentinel (df : List LedgerRow)
    (api : String → Except String String) (e : String)
    (h : api (agentPrompt df) = Except.error e) :
    (execute_agent_3 false api df = ["// ERROR: GROQ CLIENT NOT INITIALIZED"]
      ∧ strContains "ERROR" "// ERROR: GROQ CLIENT NOT INITIALIZED" = true)
    ∧ (execute_agent_3 true api df = ["// API ERROR: " ++ e]
      ∧ strContains "ERROR" ("// API ERROR: " ++ e) = true) := by
  refine ⟨⟨rfl, by decide⟩, ?_, ?_⟩
  · unfold execute_agent_3
    simp [h]
  · unfold strContains
    have hsplit : ("// API ERROR: " ++ e).toList
        = "// API ERROR: ".toList ++ e.toList := by
      simp [String.toList, String.data_append]
    rw [hsplit]
    exact listContains_append_left _ _ _ (by decide)

/-- Witness for C6 with a concrete failing completion call. -/
theorem scan_error_sentinel_witness :
    ((fun _ : String => (Except.error "boom" : Except String String))
        (agentPrompt []) = Except.error "boom")
    ∧ ((execute_agent_3 false (fun _ => Except.error "boom") []
          = ["// ERROR: GROQ CLIENT NOT INITIALIZED"]
        ∧ strContains "ERROR" "// ERROR: GROQ CLIENT NOT INITIALIZED" = true)
      ∧ (execute_agent_3 true (fun _ => Except.error "boom") []
          = ["// API ERROR: " ++ "boom"]
        ∧ strContains "ERROR" ("// API ERROR: " ++ "boom") = true)) :=
  ⟨rfl, scan_error_sentinel [] (fun _ => Except.error "boom") "boom" rfl⟩

/-! ### Claim theorems: finding-line rendering -/

/-- The sample response line of the spec. -/
def exLine : List Char :=
  "Titanium Group :: DOMINANCE -> Disproportionate cash flow".toList

/-- C8 counterexample: the rendering loop (lines 315-319) splits the
sample line only on the two-colon separator; the title keeps its
trailing space and the description keeps the arrow token and the
pattern label, so the claimed vendor_name / pattern / rationale triple
is not produced. -/
theorem renderFinding_no_arrow_split :
    renderFinding exLine
      = some ("Titanium Group ".toList,
              " DOMINANCE -> Disproportionate cash flow".toList)
    ∧ "Titanium Group ".toList ≠ "Titanium Group".toList
    ∧ " DOMINANCE -> Disproportionate cash flow".toList
        ≠ "Disproportionate cash flow".toList := by
  decide

/-- C8 (amended): for every line containing the two-colon separator,
the rendering loop produces the pair of the segment before the first
separator (the title) and the segment between the first and second
separators (the description); the pieces of the split reassemble to
the original line, the title contains no separator, and no further
split on the arrow token and no trimming happens. -/
theorem renderFinding_splits (s : List Char) (h : containsColons s = true) :
    renderFinding s
      = some (takeUntilSep s, takeUntilSep ((dropSep s).getD []))
    ∧ joinParts (splitOnColons s []) = s
    ∧ containsColons (takeUntilSep s) = false := by
  have hds : (dropSep s).isSome := by
    rw [← containsColons_eq_isSome, h]
  obtain ⟨r, hr⟩ := Option.isSome_iff_exists.mp hds
  refine ⟨?_, by simpa using joinParts_splitOnColons s [], noSep_takeUntilSep s⟩
  unfold renderFinding
  rw [if_pos h]
  rw [splitOnColons_cons s [], hr]
  simp [List.getD, splitOnColons_cons r []]

/-- Witness for C8 at the sample line. -/
theorem renderFinding_splits_witness :
    containsColons exLine = true
    ∧ (renderFinding exLine
        = some (takeUntilSep exLine, takeUntilSep ((dropSep exLine).getD []))
      ∧ joinParts (splitOnColons exLine []) = exLine
      ∧ containsColons (takeUntilSep exLine) = false) :=
  ⟨by decide, renderFinding_splits exLine (by decide)⟩

/-! ### Claim theorems: vendor aggregation -/

theorem sum_map_ite {M : Type} [AddCommMonoid M] (v : String) (c : M) :
    ∀ keys : List String, keys.Nodup → v ∈ keys →
      (keys.map (fun k => if k = v then c else 0)).sum = c := by
  intro keys
  induction keys with
  | nil => intro _ hv; cases hv
  | cons k ks ih =>
    intro hnd hv
    rcases List.mem_cons.mp hv with hv | hv
    · subst hv
      have hzero : (ks.map (fun k => if k = v then c else 0)).sum = 0 := by
        apply List.sum_eq_zero
        intro x hx
        obtain ⟨k2, hk2, hk2x⟩ := List.mem_map.mp hx
        have : k2 ≠ v := fun hkv => (List.nodup_cons.mp hnd).1 (hkv ▸ hk2)
        simpa [this] using hk2x.symm
      simp [hzero]
    · have hkv : k ≠ v := fun hkv => (List.nodup_cons.mp hnd).1 (hkv ▸ hv)
      simp only [List.map_cons, List.sum_cons, if_neg hkv, zero_add]
      exact ih (List.nodup_cons.mp hnd).2 hv

theorem sum_map_add_distrib {M : Type} [AddCommMonoid M] (f g : String → M) :
    ∀ keys : List String,
      (keys.map (fun k => f k + g k)).sum = (keys.map f).sum + (keys.map g).sum := by
  intro keys
  induction keys with
  | nil => simp
  | cons k ks ih =>
    simp only [List.map_cons, List.sum_cons, ih]
    exact add_add_add_comm _ _ _ _

/-- Summing a function group-by-group over a duplicate-free key list
covering all rows equals summing it over the rows: the heart of the
aggregation invariant. -/
theorem sum_filter_partition {M : Type} [AddCommMonoid M] (f : LedgerRow → M) :
    ∀ (rows : List LedgerRow) (keys : List String), keys.Nodup →
      (∀ r ∈ rows, r.vendor_name ∈ keys) →
      (keys.map (fun k => ((rowsFor rows k).map f).sum)).sum = (rows.map f).sum := by
  intro rows
  induction rows with
  | nil =>
    intro keys _ _
    simp only [List.map_nil, List.sum_nil]
    apply List.sum_eq_zero
    intro x hx
    obtain ⟨k, _, hkx⟩ := List.mem_map.mp hx
    simpa [rowsFor] using hkx.symm
  | cons r rs ih =>
    intro keys hnd hcov
    have hpt : ∀ k ∈ keys, ((rowsFor (r :: rs) k).map f).sum
        = (if k = r.vendor_name then f r else 0) + ((rowsFor rs k).map f).sum := by
      intro k _
      unfold rowsFor
      rw [List.filter_cons]
      by_cases hk : r.vendor_name = k
      · simp [hk]
      · have : (r.vendor_name == k) = false := by
          simpa using hk
        simp [this, Ne.symm hk]
    rw [List.map_congr_left hpt, sum_map_add_distrib]
    rw [sum_map_ite r.vendor_name (f r) keys hnd (hcov r (List.mem_cons_self r rs))]
    rw [ih keys hnd (fun x hx => hcov x (List.mem_cons_of_mem r hx))]
    simp

theorem strKeys_nodup (rows : List LedgerRow) : (strKeys rows).Nodup := by
  unfold strKeys
  exact (List.perm_insertionSort _ _).nodup_iff.mpr (List.nodup_dedup _)

theorem mem_strKeys (rows : List LedgerRow) (r : LedgerRow) (h : r ∈ rows) :
    r.vendor_name ∈ strKeys rows := by
  unfold strKeys
  rw [List.mem_insertionSort]
  exact List.mem_dedup.mpr (List.mem_map_of_mem LedgerRow.vendor_name h)

theorem length_eq_sum_ones {α : Type} (l : List α) :
    (l.map (fun _ => (1 : Nat))).sum = l.length := by
  induction l with
  | nil => rfl
  | cons a l ih => simp [ih, Nat.add_comm]

/-- C1: the aggregation of lines 177-180 conserves mass.  The
total_spend values of the per-vendor groups sum to the sum of all
total_amount values of the rows (exactly, since amounts are embedded as
rationals), and the txn_count values sum to the number of rows. -/
theorem aggregation_sums (rows : List LedgerRow) :
    ((stats rows).map VendorAggregate.total_spend).sum
      = (rows.map LedgerRow.total_amount).sum
    ∧ ((stats rows).map VendorAggregate.txn_count).sum = rows.length := by
  constructor
  · unfold stats
    rw [List.map_map]
    exact sum_filter_partition LedgerRow.total_amount rows (strKeys rows)
      (strKeys_nodup rows) (fun r hr => mem_strKeys rows r hr)
  · unfold stats
    rw [List.map_map]
    have hpt : ∀ k ∈ strKeys rows,
        (VendorAggregate.txn_count ∘ fun k =>
          { vendor_name := k, total_spend := spendOf rows k
            txn_count := (rowsFor rows k).length : VendorAggregate }) k
        = ((rowsFor rows k).map (fun _ => (1 : Nat))).sum := by
      intro k _
      simp [length_eq_sum_ones]
    rw [List.map_congr_left hpt]
    rw [sum_filter_partition (fun _ => (1 : Nat)) rows (strKeys rows)
      (strKeys_nodup rows) (fun r hr => mem_strKeys rows r hr)]
    exact length_eq_sum_ones rows

/-- C2: the evidence window of line 183 (the value-sorted aggregates,
truncated to 25) is pairwise ordered by descending total_spend with
ties broken by descending txn_count. -/
theorem targets_sorted (rows : List LedgerRow) :
    List.Pairwise (fun a b : VendorAggregate =>
      b.total_spend < a.total_spend ∨
        (b.total_spend = a.total_spend ∧ b.txn_count ≤ a.txn_count))
      (targets rows) := by
  have hs : List.Sorted aggGE (sortedStats rows) :=
    List.sorted_insertionSort aggGE (stats rows)
  exact List.Pairwise.sublist (List.take_sublist 25 (sortedStats rows)) hs

theorem strKeys_perm_invariant (rows rows' : List LedgerRow)
    (h : rows.Perm rows') : strKeys rows = strKeys rows' := by
  have hperm : (strKeys rows).Perm (strKeys rows') := by
    unfold strKeys
    exact (List.perm_insertionSort _ _).trans
      (((h.map LedgerRow.vendor_name).dedup).trans
        (List.perm_insertionSort _ _).symm)
  have hs1 : List.Sorted (fun a b : String => a ≤ b) (strKeys rows) :=
    List.sorted_insertionSort _ _
  have hs2 : List.Sorted (fun a b : String => a ≤ b) (strKeys rows') :=
    List.sorted_insertionSort _ _
  exact List.eq_of_perm_of_sorted hperm hs1 hs2

theorem stats_perm_invariant (rows rows' : List LedgerRow)
    (h : rows.Perm rows') : stats rows = stats rows' := by
  unfold stats
  rw [← strKeys_perm_invariant rows rows' h]
  apply List.map_congr_left
  intro k _
  have hgroup : (rowsFor rows k).Perm (rowsFor rows' k) := by
    unfold rowsFor
    exact h.filter (fun r => r.vendor_name == k)
  have hspend : spendOf rows k = spendOf rows' k :=
    (hgroup.map LedgerRow.total_amount).sum_eq
  have hlen : (rowsFor rows k).length = (rowsFor rows' k).length :=
    hgroup.length_eq
  rw [hspend, hlen]

/-- C3: aggregation is deterministic and order-insensitive.  Running
the aggregation twice on the same rows gives the same ordered output
(it is a pure function), and permuting the input rows leaves both the
full ordered aggregate list and the evidence window unchanged, because
groupby keys are sorted alphabetically and the value sort is stable. -/
theorem aggregation_deterministic (rows rows' : List LedgerRow)
    (h : rows.Perm rows') :
    sortedStats rows = sortedStats rows
    ∧ sortedStats rows = sortedStats rows'
    ∧ targets rows = targets rows' := by
  have hs : sortedStats rows = sortedStats rows' := by
    unfold sortedStats
    rw [stats_perm_invariant rows rows' h]
  exact ⟨rfl, hs, by unfold targets; rw [hs]⟩

/-- Two sample rows for the C3 witness. -/
def rowA : LedgerRow :=
  { invoice_id := "INV-1", vendor_name := "Acme", total_amount := 10, risk_score := 0 }

/-- Second sample row for the C3 witness. -/
def rowB : LedgerRow :=
  { invoice_id := "INV-2", vendor_name := "Beta", total_amount := 5, risk_score := 0 }

/-- Witness for C3 on a concrete two-row permutation. -/
theorem aggregation_deterministic_witness :
    ([rowA, rowB].Perm [rowB, rowA])
    ∧ (sortedStats [rowA, rowB] = sortedStats [rowA, rowB]
      ∧ sortedStats [rowA, rowB] = sortedStats [rowB, rowA]
      ∧ targets [rowA, rowB] = targets [rowB, rowA]) :=
  ⟨by decide, aggregation_deterministic [rowA, rowB] [rowB, rowA] (by decide)⟩

/-! ### Claim theorems: donut-chart top-4 plus Others -/

theorem sum_snd_take_drop (l : List (String × Rat)) (n : Nat) :
    ((l.take n).map Prod.snd).sum + ((l.drop n).map Prod.snd).sum
      = (l.map Prod.snd).sum := by
  rw [List.map_take, List.map_drop]
  conv_rhs => rw [← List.take_append_drop n (l.map Prod.snd)]
  rw [List.sum_append]

theorem pieAll_sum (rows : List LedgerRow) :
    ((pieAll rows).map Prod.snd).sum = (rows.map LedgerRow.total_amount).sum := by
  unfold pieAll
  rw [List.map_map]
  exact sum_filter_partition LedgerRow.total_amount rows (strKeys rows)
    (strKeys_nodup rows) (fun r hr => mem_strKeys rows r hr)

theorem pieSorted_perm (rows : List LedgerRow) :
    (pieSorted rows).Perm (pieAll rows) :=
  List.perm_insertionSort pieGE (pieAll rows)

theorem pieSorted_length (rows : List LedgerRow) :
    (pieSorted rows).length = numVendors rows := by
  rw [(pieSorted_perm rows).length_eq]
  unfold pieAll numVendors strKeys
  rw [List.length_map, List.length_insertionSort]

/-- C4: the chart data of lines 234-240 with its fixed top-K setting
K = 4.  The output totals sum to the sum of all per-vendor totals,
which in turn is the sum of all row amounts; the output length is
min (K+1) (number of distinct vendors); the value-sorted vendor list is
pairwise descending by total; and when more than 4 vendors exist the
output is exactly the top 4 followed by an Others entry carrying the
sum of the excluded tail. -/
theorem pie_top4_others (rows : List LedgerRow) :
    ((pie_data rows).map Prod.snd).sum = ((pieAll rows).map Prod.snd).sum
    ∧ ((pieAll rows).map Prod.snd).sum = (rows.map LedgerRow.total_amount).sum
    ∧ (pie_data rows).length = min 5 (numVendors rows)
    ∧ List.Pairwise (fun a b : String × Rat => b.2 ≤ a.2) (pieSorted rows)
    ∧ (4 < (pieSorted rows).length →
        pie_data rows = (pieSorted rows).take 4
          ++ [("Others", (((pieSorted rows).drop 4).map Prod.snd).sum)]) := by
  have hsum_sorted : ((pieSorted rows).map Prod.snd).sum
      = ((pieAll rows).map Prod.snd).sum :=
    ((pieSorted_perm rows).map Prod.snd).sum_eq
  refine ⟨?_, pieAll_sum rows, ?_, List.sorted_insertionSort pieGE (pieAll rows), ?_⟩
  · unfold pie_data
    by_cases hlen : 4 < (pieSorted rows).length
    · rw [if_pos hlen]
      rw [List.map_append, List.sum_append]
      simp only [List.map_cons, List.map_nil, List.sum_cons, List.sum_nil, add_zero]
      rw [← hsum_sorted]
      exact sum_snd_take_drop (pieSorted rows) 4
    · rw [if_neg hlen]
      exact hsum_sorted
  · unfold pie_data
    by_cases hlen : 4 < (pieSorted rows).length
    · rw [if_pos hlen]
      rw [List.length_append, List.length_take]
      simp only [List.length_cons, List.length_nil]
      rw [pieSorted_length rows] at hlen ⊢
      omega
    · rw [if_neg hlen]
      rw [pieSorted_length rows] at hlen ⊢
      omega
  · intro hlen
    unfold pie_data
    rw [if_pos hlen]

/-- Five single-row vendors for the C4 witness. -/
def exRows5 : List LedgerRow :=
  [⟨"I1", "V1", 50, 0⟩, ⟨"I2", "V2", 40, 0⟩, ⟨"I3", "V3", 30, 0⟩,
    ⟨"I4", "V4", 20, 0⟩, ⟨"I5", "V5", 10, 0⟩]

/-- Witness for C4 at a concrete five-vendor input, discharging the
more-than-four-vendors implication. -/
theorem pie_top4_others_witness :
    (4 < (pieSorted exRows5).length)
    ∧ pie_data exRows5 = (pieSorted exRows5).take 4
        ++ [("Others", (((pieSorted exRows5).drop 4).map Prod.snd).sum)] := by
  have hlen : 4 < (pieSorted exRows5).length := by
    rw [pieSorted_length]
    decide
  exact ⟨hlen, (pie_top4_others exRows5).2.2.2.2 hlen⟩

/-! ### Claim theorems: load-time numeric coercion -/

/-- A raw record whose risk_score key is absent; when it is the only
record, the dataframe has no risk_score column at all. -/
def rawNoRisk : RawRow :=
  { invoice_id := "INV-1", vendor_name := "Acme"
    total_amount := some (CellVal.num 5), risk_score := none }

/-- C9 counterexample: a nonempty dataframe in which no record carries
a risk_score key has no risk_score column, and line 224 then raises
KeyError instead of defaulting the column to 0; a wholly missing
column is not tolerated. -/
theorem cleanup_missing_column_raises :
    (cleanup [rawNoRisk]).isOk = false
    ∧ cleanup [rawNoRisk] = Except.error "KeyError: risk_score" :=
  ⟨rfl, rfl⟩

/-- C9 (amended): when each of the two numeric columns is present in at
least one record, the cleanup of lines 223-224 succeeds and coerces
every cell: a missing cell, an explicit null, and any string that does
not parse as a decimal literal all load as 0, never as an error.  (A
column absent from every record instead raises KeyError, per the
counterexample.) -/
theorem cleanup_coerces_cells (rows : List RawRow) (s : String)
    (h1 : rows.all (fun r => r.total_amount = none) = false)
    (h2 : rows.all (fun r => r.risk_score = none) = false)
    (hs : parseDec s = none) :
    cleanup rows = Except.ok (rows.map cleanRow)
    ∧ coerceCell none = 0
    ∧ coerceCell (some CellVal.null) = 0
    ∧ coerceCell (some (CellVal.str s)) = 0 := by
  refine ⟨?_, rfl, rfl, ?_⟩
  · unfold cleanup
    simp [h1, h2]
  · show (parseDec s).getD 0 = 0
    rw [hs]
    rfl

/-- Concrete raw records for the C9 witness: a non-numeric
total_amount cell and a per-record missing risk_score cell. -/
def exRaw : List RawRow :=
  [{ invoice_id := "INV-1", vendor_name := "Acme"
     total_amount := some (CellVal.str "abc"), risk_score := some (CellVal.num 7) },
   { invoice_id := "INV-2", vendor_name := "Beta"
     total_amount := some (CellVal.num 5), risk_score := none }]

/-- Witness for C9: the sample rows load with the abc amount and the
missing risk cell both coerced to 0. -/
theorem cleanup_coerces_cells_witness :
    (exRaw.all (fun r => r.total_amount = none) = false)
    ∧ (exRaw.all (fun r => r.risk_score = none) = false)
    ∧ parseDec "abc" = none
    ∧ (cleanup exRaw = Except.ok (exRaw.map cleanRow)
      ∧ coerceCell none = 0
      ∧ coerceCell (some CellVal.null) = 0
      ∧ coerceCell (some (CellVal.str "abc")) = 0)
    ∧ exRaw.map cleanRow
      = [{ invoice_id := "INV-1", vendor_name := "Acme"
           total_amount := 0, risk_score := 7 },
         { invoice_id := "INV-2", vendor_name := "Beta"
           total_amount := 5, risk_score := 0 }] :=
  ⟨by decide, by decide, by decide,
    cleanup_coerces_cells exRaw "abc" (by decide) (by decide) (by decide),
    by decide⟩
